import Mathlib

/-!
# Verification of the stravaldi synchronizer

A shallow embedding of the token-lifecycle and activity-cache logic of the
stravaldi repository (`main.py`, `storage.py`, `strava.py`), with theorems
settling the behavioural claims about it.

Conventions of the embedding:
* Python scalar values appearing in records are modelled by `PyVal`; JSON
  payloads and Python dicts whose values are scalars are association lists
  (`Dict`).  Values a claim never inspects are carried opaquely as
  `PyVal.obj`.
* `json.dumps` followed by `json.loads` is the identity on the dicts the
  program stores (they come from `resp.json()`), so a stored `raw` column is
  modelled as the dict itself.
* SQLite tables are Lean lists of row structures in insertion (rowid) order;
  `fetchone` on a `SELECT` without `ORDER BY` is `List.find?` (first row in
  that order).
* Timestamps (`datetime.now().timestamp()`, `expires_at`) are rationals.
* Python exceptions are `Except` errors; where a claim needs the state at the
  moment an exception escapes, the error value carries that state.
-/

set_option autoImplicit false

namespace Stravaldi

/-- Scalar Python/JSON values as they occur in the records this program
handles.  `obj` stands opaquely for any other value (nested lists/objects),
which no claim inspects. -/
inductive PyVal where
  | none
  | str (s : String)
  | num (q : ℚ)
  | bool (b : Bool)
  | obj (tag : Nat)
  deriving DecidableEq, Repr

/-- A Python dict / JSON object with scalar values, in insertion order. -/
abbrev Dict := List (String × PyVal)

/-- `d[k]` / `d.get(k)`: first binding wins (keys of a Python dict are
unique, so the first binding is the binding). -/
def dictGet (d : Dict) (k : String) : Option PyVal :=
  (d.find? (fun kv => kv.1 == k)).map (·.2)

/-- `d.get(k, None)`. -/
def dictGetD (d : Dict) (k : String) : PyVal :=
  (dictGet d k).getD .none

/-- Insertion into an association list with Python-dict semantics:
overwrite in place when the key exists, append otherwise. -/
def assocInsert {β : Type} (d : List (String × β)) (k : String) (v : β) :
    List (String × β) :=
  if d.any (fun kv => kv.1 == k) then
    d.map (fun kv => if kv.1 == k then (k, v) else kv)
  else
    d ++ [(k, v)]

/-- `d[k] = v` on a Python dict: overwrite in place if the key exists,
append otherwise. -/
def dictInsert (d : Dict) (k : String) (v : PyVal) : Dict :=
  assocInsert d k v

/-! ## Token branch decision (`main.py`, `update_strava_activities`, lines 102-112)

```
token_data = storage.lookup_access_token(args.id)
if not token_data:
    token_data = cl_acquire_token(args.id)        # interactive authorization
else:
    (athlete_id, scope, token) = token_data
    if datetime.datetime.now().timestamp() > token["expires_at"]:
        token_data = refresh_token(args.id)       # refresh via stored refresh token
```
`lookup_access_token` returns `None` or a triple `(athlete_id, scope, raw)`;
a 3-tuple is always truthy, so `not token_data` is exactly "no stored token".
-/

/-- Which branch the orchestrator takes to obtain a usable token. -/
inductive TokenPath where
  | interactiveAuth
  | refreshPath
  | direct
  deriving DecidableEq, Repr

/-- The token-validity decision of `update_strava_activities`.  `stored` is
the result of `lookup_access_token` (athlete_id, scope, raw token payload);
`now` is `datetime.datetime.now().timestamp()`.  Reading
`token["expires_at"]` raises `KeyError` when absent, and comparing a float
against a non-number raises `TypeError`. -/
def tokenBranch (stored : Option (Int × String × Dict)) (now : ℚ) :
    Except String TokenPath :=
  match stored with
  | Option.none => .ok .interactiveAuth
  | some (_aid, _scope, token) =>
    match dictGet token "expires_at" with
    | Option.none => .error "KeyError: expires_at"
    | some (.num e) => if now > e then .ok .refreshPath else .ok .direct
    | some _ => .error "TypeError: unorderable comparison"

/-! ## Pagination (`strava.py`, `StravaClient._paginated_results`, lines 105-119)

```
page_num = 1
params["per_page"] = PAGE_SIZE
while True:
    params.update({"page": page_num})
    resp = requests.get(url, headers=headers, params=params)
    resp_data = resp.json()
    if not resp_data:
        break
    for record in resp_data:
        yield record
    page_num += 1
```
The remote endpoint is modelled as a function `pages : Nat → List α` from the
(1-based) page number to the page's records.  The `while True` loop is given
fuel; with enough fuel to reach the first empty page the cut is never taken.
The result pairs the yielded records with the list of page numbers requested,
in request order. -/

/-- One iteration of the pagination loop, starting at page `p`. -/
def paginateFrom {α : Type} (pages : Nat → List α) : Nat → Nat → List α × List Nat
  | 0, _ => ([], [])
  | fuel + 1, p =>
    let respData := pages p
    if respData.isEmpty then
      ([], [p])
    else
      let rest := paginateFrom pages fuel (p + 1)
      (respData ++ rest.1, p :: rest.2)

/-- `_paginated_results`: records yielded and pages requested. -/
def paginatedResults {α : Type} (pages : Nat → List α) (fuel : Nat) :
    List α × List Nat :=
  paginateFrom pages fuel 1

/-! ## The activities table (`storage.py`, lines 58-110)

Schema (external file): columns `id, private_note, description, name, type,
user_id, last_updated, raw`.  Rows are listed in insertion (rowid) order. -/

structure ActivityRow where
  act_id : PyVal
  private_note : PyVal
  description : PyVal
  name : PyVal
  sport_type : PyVal
  user_id : String
  last_updated : ℚ
  raw : Dict
  deriving DecidableEq, Repr

/-- The row `store_activity` builds for its `INSERT`: the columns use
`activity.get(k, None)`; `raw` is `json.dumps(activity)`, modelled as the
dict itself (JSON round-trip). -/
def storedActivityRow (activity : Dict) (uid : String) (now : ℚ)
    (idv : PyVal) : ActivityRow :=
  ⟨idv, dictGetD activity "private_note", dictGetD activity "description",
   dictGetD activity "name", dictGetD activity "type", uid, now, activity⟩

/-- `SqliteStorage.store_activity`: one plain `INSERT` (never an update).
The values tuple reads `activity["id"]`, raising `KeyError` before the
`INSERT` when absent.  After the `INSERT` the log line
`log.debug(f"... '{activity['name']}' ({activity['id']})")` evaluates its
f-string eagerly, so a payload lacking `"name"` raises `KeyError` with the
row already inserted.  The error value carries the table state at the
moment the exception escapes. -/
def store_activity (db : List ActivityRow) (activity : Dict) (uid : String)
    (now : ℚ) :
    Except (String × List ActivityRow) (List ActivityRow × PyVal) :=
  match dictGet activity "id" with
  | Option.none => .error ("KeyError: id", db)
  | some idv =>
    let db1 := db ++ [storedActivityRow activity uid now idv]
    match dictGet activity "name" with
    | Option.none => .error ("KeyError: name", db1)
    | some _ => .ok (db1, idv)

/-- `SqliteStorage.get_activity`: point lookup
`SELECT * FROM activities WHERE (id=? AND user_id=?)` followed by
`fetchone`; returns `(json.loads(row["raw"]), row["last_updated"])` or
`None`. -/
def get_activity (db : List ActivityRow) (activityId : PyVal) (uid : String) :
    Option (Dict × ℚ) :=
  (db.find? (fun r => r.act_id == activityId && r.user_id == uid)).map
    (fun r => (r.raw, r.last_updated))

/-- `SqliteStorage.get_activities`: the `cursor.execute` call is
`cur.execute("SELECT * FROM activities WHERE user_id=?", user_id)` — the
parameters argument is the bare string `user_id`, not a 1-tuple.  sqlite3
accepts any sequence there and a Python `str` is a sequence of its
characters, so the statement receives `len(user_id)` bindings for its one
placeholder and raises `ProgrammingError` unless `len(user_id) == 1` (in
which case the single bound value is the one-character string itself). -/
def get_activities (db : List ActivityRow) (uid : String) :
    Except String (List (Dict × ℚ)) :=
  let bindings := uid.toList.map (fun c => String.mk [c])
  if bindings.length == 1 then
    .ok ((db.filter (fun r => r.user_id == uid)).map
      (fun r => (r.raw, r.last_updated)))
  else
    .error "ProgrammingError: Incorrect number of bindings supplied"

/-- One iteration of the cache-miss loop of `update_strava_activities`
(`main.py`, lines 119-127).  `activity` is one record yielded by
`sclient.get_activities`.  Line 120 reads `activity["id"]` (a `KeyError`
when absent); the `log.info` f-strings of both branches (lines 122 and 127)
read `activity['name']` eagerly, raising `KeyError` for a nameless record —
in the miss branch before the detail fetch.  On a hit nothing is fetched or
stored; on a miss the full detail is fetched (`get_activity_detailed`) and
stored, `store_activity`'s own error state propagating.  Returns the new
table and the number of detail fetches issued (0 or 1). -/
def sync_activity_step (db : List ActivityRow) (uid : String)
    (activity : Dict) (fetchDetail : PyVal → Dict) (now : ℚ) :
    Except (String × List ActivityRow) (List ActivityRow × Nat) :=
  match dictGet activity "id" with
  | Option.none => .error ("KeyError: id", db)
  | some idv =>
    match get_activity db idv uid with
    | some _ =>
      match dictGet activity "name" with
      | Option.none => .error ("KeyError: name", db)
      | some _ => .ok (db, 0)
    | Option.none =>
      match dictGet activity "name" with
      | Option.none => .error ("KeyError: name", db)
      | some _ =>
        match store_activity db (fetchDetail idv) uid now with
        | .error e => .error e
        | .ok (db2, _) => .ok (db2, 1)

/-! ## The athletes table (`storage.py`, `store_athlete`, lines 75-84)

```
INSERT INTO athletes (athlete_id, user_id, last_updated, raw) VALUES (?, ?, ?, ?)
ON CONFLICT(athlete_id) DO UPDATE SET user_id=excluded.user_id,
last_updated=excluded.last_updated, raw=excluded.raw
```
The external schema makes `athlete_id` unique, so at most one row can
conflict; `DO UPDATE` rewrites that row in place (its position is kept). -/

structure AthleteRow where
  athlete_id : PyVal
  user_id : String
  last_updated : ℚ
  raw : Dict
  deriving DecidableEq, Repr

/-- `SqliteStorage.store_athlete`: upsert keyed by `athlete_id`.
`athlete["id"]` raises `KeyError` when absent. -/
def store_athlete (db : List AthleteRow) (athlete : Dict) (uid : String)
    (now : ℚ) : Except String (List AthleteRow) :=
  match dictGet athlete "id" with
  | Option.none => .error "KeyError: id"
  | some aid =>
    if db.any (fun r => r.athlete_id == aid) then
      .ok (db.map (fun r =>
        if r.athlete_id == aid then ⟨aid, uid, now, athlete⟩ else r))
    else
      .ok (db ++ [⟨aid, uid, now, athlete⟩])

/-! ## The token tables (`storage.py`, lines 112-147) -/

structure RefreshRow where
  user_id : String
  athlete_id : Int
  token : PyVal
  scope : String
  raw : Dict
  deriving DecidableEq, Repr

structure AccessRow where
  user_id : String
  athlete_id : Int
  expires_at : PyVal
  token : PyVal
  scope : String
  raw : Dict
  deriving DecidableEq, Repr

structure TokenDB where
  refresh : List RefreshRow
  access : List AccessRow
  deriving DecidableEq, Repr

/-- `SqliteStorage.store_token`: two separate `INSERT`s with no transaction
boundary between them.  The first values tuple reads
`token_data['refresh_token']` (a `KeyError` here escapes before any insert);
the second, built after the `refresh_tokens` insert, reads
`token_data['expires_at']` (a `KeyError` here escapes with the first insert
already performed).  The error value carries the table state at the moment
the exception escapes. -/
def store_token (db : TokenDB) (uid : String) (aid : Int) (tokenData : Dict)
    (scope : String) : Except (String × TokenDB) TokenDB :=
  match dictGet tokenData "refresh_token" with
  | Option.none => .error ("KeyError: refresh_token", db)
  | some rtok =>
    let db1 : TokenDB :=
      { db with refresh := db.refresh ++ [⟨uid, aid, rtok, scope, tokenData⟩] }
    match dictGet tokenData "expires_at" with
    | Option.none => .error ("KeyError: expires_at", db1)
    | some expv =>
      .ok { db1 with
            access := db1.access ++ [⟨uid, aid, expv, rtok, scope, tokenData⟩] }

/-- `SqliteStorage.lookup_refresh_token`:
```
cur.execute("SELECT * FROM refresh_tokens WHERE user_id=?", (user_id,))
row = cur.fetchone()
if not row:
    return None
self._close_curs()
return row['athlete_id'], row['scope'], json.loads(row['raw'])
```
When no row exists it returns `None` without touching `_close_curs`.  When a
row exists it calls `self._close_curs()` with no argument, but
`_close_curs(self, cur)` requires the cursor parameter, so the call raises
`TypeError` before the return statement is reached. -/
def lookup_refresh_token (db : List RefreshRow) (uid : String) :
    Except String (Option (Int × String × Dict)) :=
  match db.find? (fun r => r.user_id == uid) with
  | Option.none => .ok Option.none
  | some _row =>
    .error "TypeError: close_curs missing 1 required positional argument: cur"

/-! ## Pain-note parsing and the export rows (`main.py`, `get_strava_activities`, lines 79-99)

```
selection = ["id", "name", ...]                       # 17 field names
for record in storage.get_activities(user_id):
    priv_note = record.get("private_note", "")
    pains = {}
    matches = None
    try:
        if priv_note:
            matches = re.findall(r"(.+):(.+)", priv_note)
        if matches:
            pains = {f"pains.{m[0].lower()}": float(m[1]) for m in matches}
    except Exception as err:
        log.error(...)
    activity = {k: v for k, v in record.items() if k in selection}
    activity.update(pains)
    yield activity
```
`re` semantics for `(.+):(.+)` with the default flags: `.` matches any
character except `\n`, so a match never crosses a line; within a line the
first group is greedy, so it extends to just before the *last* `:` that has
a non-empty remainder, and the second group then consumes the rest of the
line, so there is at most one match per line.  A line matches iff it has a
`:` at some index `j` with `1 ≤ j ≤ len - 2`. -/

/-- Split a character list on a separator character, Python
`str.split(sep)` / Lean `String.splitOn` semantics for a one-character
separator: `n` separators yield `n + 1` (possibly empty) groups. -/
def splitOnChar (sep : Char) : List Char → List (List Char)
  | [] => [[]]
  | c :: rest =>
    match splitOnChar sep rest with
    | [] => if c = sep then [[], []] else [[c]]
    | grp :: gs => if c = sep then [] :: grp :: gs else (c :: grp) :: gs

/-- ASCII lowercasing, `str.lower()` on the ASCII notes this program
meets. -/
def pyLower (s : String) : String :=
  String.mk (s.data.map Char.toLower)

/-- The match of `(.+):(.+)` on a single (newline-free) line: split at the
last `:` that leaves both groups non-empty. -/
def lineMatch (l : List Char) : Option (String × String) :=
  let n := l.length
  let validIdx := (List.range n).filter
    (fun j => (l.get? j == some ':') && decide (1 ≤ j) && decide (j + 1 < n))
  match validIdx.getLast? with
  | Option.none => Option.none
  | some j => some (String.mk (l.take j), String.mk (l.drop (j + 1)))

/-- `re.findall(r"(.+):(.+)", s)`: one optional match per `\n`-separated
line. -/
def painMatches (s : String) : List (String × String) :=
  (splitOnChar '\n' s.data).filterMap lineMatch

/-- A run of decimal digits as a natural number; `none` if any character is
not a digit.  The empty run parses as `0` (needed for `"1."` / `".5"`). -/
def decDigits? (cs : List Char) : Option Nat :=
  if cs.all (fun c => c.isDigit) then
    some (cs.foldl (fun acc c => acc * 10 + (c.toNat - 48)) 0)
  else Option.none

/-- Python `float()` on the decimal literals this program can meet: optional
surrounding whitespace, optional sign, digits with an optional `.`
(exponents, `inf`/`nan` and digit underscores are never produced by the
pain-note grammar and are not modelled).  `none` models `ValueError`. -/
def pyFloat (s : String) : Option ℚ :=
  let t := (s.data.dropWhile Char.isWhitespace).reverse.dropWhile
    Char.isWhitespace |>.reverse
  let signBody : ℚ × List Char :=
    match t with
    | '-' :: rest => (-1, rest)
    | '+' :: rest => (1, rest)
    | cs => (1, cs)
  let sign := signBody.1
  match splitOnChar '.' signBody.2 with
  | [ip] =>
    if ip.isEmpty then Option.none
    else (decDigits? ip).map (fun n => sign * (n : ℚ))
  | [ip, fp] =>
    if ip.isEmpty && fp.isEmpty then Option.none
    else
      match decDigits? ip, decDigits? fp with
      | some n, some f =>
        some (sign * ((n : ℚ) + (f : ℚ) / ((10 : ℚ) ^ fp.length)))
      | _, _ => Option.none
  | _ => Option.none

/-- The `pains` map produced for one private note by the guarded block: the
dict comprehension over the regex matches, with the whole `try` body
degrading to the empty map when `float()` raises on any match.  Keys are
`"pains." + lowercased body part` (ASCII lowercasing; the notes are
ASCII). -/
def painsOf (note : String) : List (String × ℚ) :=
  let ms := if note.data.isEmpty then [] else painMatches note
  if ms.isEmpty then []
  else
    match ms.mapM
        (fun m => (pyFloat m.2).map (fun q => ("pains." ++ pyLower m.1, q))) with
    | some pairs => pairs.foldl (fun d p => assocInsert d p.1 p.2) []
    | Option.none => []

/-- The 17-field selection list of `get_strava_activities`. -/
def selection : List String :=
  ["id", "name", "distance", "moving_time",
   "elapsed_time", "total_elevation_gain", "type",
   "start_date", "start_latlng", "average_speed",
   "average_temp", "average_cadence", "calories",
   "description", "average_heartrate", "max_heartrate",
   "suffer_score"]

/-- `record.get("private_note", "")` as the string the regex is applied to:
`""` when the key is absent; a `None` value is falsy so the `findall` is
skipped, same as `""` (a truthy non-string value would raise inside the
guarded `try`, which also yields the empty pains map). -/
def privNoteString (record : Dict) : String :=
  match dictGetD record "private_note" with
  | .str s => s
  | _ => ""

/-- One exported row of `get_strava_activities`: the record filtered to the
selection keys, then updated with the pains map (`activity.update(pains)`). -/
def exportRow (record : Dict) : Dict :=
  let pains := painsOf (privNoteString record)
  let activity := record.filter (fun kv => selection.contains kv.1)
  pains.foldl (fun d p => dictInsert d p.1 (.num p.2)) activity

/-! ## Redirect handling (`main.py`, `handle_access_response`, lines 36-51)

```
get_params = parse_qs(urlparse(url).query)
if get_params.get("error", None) == "access_denied":
    raise Exception(f"Received access_denied in redirect_url: {url}")
token_data = sclient.exchange_token(get_params['code'][0])
...
```
`parse_qs` returns `dict[str, list[str]]`, so `get_params.get("error",
None)` is either `None` or a *list* of strings; Python `==` between a list
(or `None`) and a `str` is always `False`, so the guard can never fire.
The model takes the query component of the redirect URL (what
`urlparse(url).query` extracts) and replays the handler up to the point
where `exchange_token` is invoked; percent-decoding is not modelled (the
inputs of interest contain no escapes). -/

abbrev QueryDict := List (String × List String)

def qdictGet (d : QueryDict) (k : String) : Option (List String) :=
  (d.find? (fun kv => kv.1 == k)).map (·.2)

/-- `parse_qs` accumulation: append to the key's list, or start it. -/
def multiAdd (d : QueryDict) (k : String) (v : String) : QueryDict :=
  if d.any (fun kv => kv.1 == k) then
    d.map (fun kv => if kv.1 == k then (kv.1, kv.2 ++ [v]) else kv)
  else
    d ++ [(k, [v])]

/-- `name.partition('=')` on one query component: the part before the first
`=` and the part after it; `none` when there is no `=`. -/
def partitionEq : List Char → Option (List Char × List Char)
  | [] => Option.none
  | c :: rest =>
    if c = '=' then some ([], rest)
    else (partitionEq rest).map (fun p => (c :: p.1, p.2))

/-- One `name=value` component: components without `=` or with an empty
value are dropped (`keep_blank_values=False`). -/
def parseQsPair (cs : List Char) : Option (String × String) :=
  match partitionEq cs with
  | Option.none => Option.none
  | some (k, v) =>
    if v.isEmpty then Option.none else some (String.mk k, String.mk v)

/-- `urllib.parse.parse_qs` on a query string. -/
def parse_qs (query : String) : QueryDict :=
  ((splitOnChar '&' query.data).filterMap parseQsPair).foldl
    (fun d kv => multiAdd d kv.1 kv.2) []

/-- The Python value `get_params.get("error", None)` can take. -/
inductive PyQ where
  | qnone
  | qstr (s : String)
  | qlist (l : List String)
  deriving DecidableEq, Repr

/-- Python `==` on these values: structural within a type, and always
`False` across `None` / `str` / `list`. -/
def pyEq : PyQ → PyQ → Bool
  | .qnone, .qnone => true
  | .qstr a, .qstr b => a == b
  | .qlist a, .qlist b => a == b
  | _, _ => false

/-- How one call of `handle_access_response` terminates, up to the point
where the token exchange is or is not invoked. -/
inductive AccessOutcome where
  | raisedAccessDenied
  | raisedKeyError (key : String)
  | calledExchangeToken (code : String)
  deriving DecidableEq, Repr

/-- `handle_access_response`, driven by the query component of the redirect
URL.  (The `some []` branch is unreachable: `parse_qs` value lists are
non-empty.) -/
def handle_access_response (query : String) : AccessOutcome :=
  let getParams := parse_qs query
  let errVal : PyQ :=
    match qdictGet getParams "error" with
    | some l => .qlist l
    | Option.none => .qnone
  if pyEq errVal (.qstr "access_denied") then .raisedAccessDenied
  else
    match qdictGet getParams "code" with
    | Option.none => .raisedKeyError "code"
    | some [] => .raisedKeyError "code"
    | some (c :: _) => .calledExchangeToken c

/-! ## Theorems -/

/-- C1: for every invocation of `update_strava_activities`, if no access
token is stored the orchestrator takes the interactive-authorization branch
and never the refresh branch; if a stored token's expiry is in the past
relative to now it takes the refresh branch and never interactive
authorization; if the stored token is unexpired it proceeds directly with
neither. -/
theorem token_branch_selection :
    (∀ now : ℚ,
      tokenBranch Option.none now = .ok .interactiveAuth ∧
      tokenBranch Option.none now ≠ .ok .refreshPath) ∧
    (∀ (aid : Int) (scope : String) (token : Dict) (e now : ℚ),
      dictGet token "expires_at" = some (.num e) → now > e →
      tokenBranch (some (aid, scope, token)) now = .ok .refreshPath ∧
      tokenBranch (some (aid, scope, token)) now ≠ .ok .interactiveAuth) ∧
    (∀ (aid : Int) (scope : String) (token : Dict) (e now : ℚ),
      dictGet token "expires_at" = some (.num e) → ¬ now > e →
      tokenBranch (some (aid, scope, token)) now = .ok .direct ∧
      tokenBranch (some (aid, scope, token)) now ≠ .ok .refreshPath ∧
      tokenBranch (some (aid, scope, token)) now ≠ .ok .interactiveAuth) := by
  refine ⟨fun now => ⟨rfl, by simp [tokenBranch]⟩, ?_, ?_⟩
  · intro aid scope token e now he hgt
    refine ⟨?_, ?_⟩ <;> simp [tokenBranch, he, hgt]
  · intro aid scope token e now he hle
    refine ⟨?_, ?_, ?_⟩ <;> simp [tokenBranch, he, hle]

/-- Witness for `token_branch_selection` at concrete inputs: no stored
token, a token expired at 10 checked at time 20, and the same token checked
at time 5. -/
theorem token_branch_selection_witness :
    tokenBranch Option.none 0 = .ok .interactiveAuth ∧
    tokenBranch (some (7, "read", [("expires_at", .num 10)])) 20 =
      .ok .refreshPath ∧
    tokenBranch (some (7, "read", [("expires_at", .num 10)])) 5 =
      .ok .direct :=
  ⟨(token_branch_selection.1 0).1,
   (token_branch_selection.2.1 7 "read" [("expires_at", .num 10)] 10 20
     (by decide) (by norm_num)).1,
   (token_branch_selection.2.2 7 "read" [("expires_at", .num 10)] 10 5
     (by decide) (by norm_num)).1⟩

/-- C4 (failing input): on the redirect query
`error=access_denied&code=abc&state=u1&scope=read` the denial guard does not
fire — `get_params.get("error", None)` is the list `["access_denied"]`,
never equal to the string `"access_denied"` — and `exchange_token` is
invoked with the code, contradicting the claim that any redirect carrying
`error=access_denied` fails without a token-exchange call. -/
theorem access_denied_guard_dead :
    handle_access_response "error=access_denied&code=abc&state=u1&scope=read" =
      .calledExchangeToken "abc" ∧
    handle_access_response "error=access_denied" = .raisedKeyError "code" := by
  constructor <;> rfl

/-- C5 (failing input): `lookup_refresh_token` raises `TypeError` whenever a
refresh-token row exists for the user — the epilogue calls `_close_curs()`
without its required cursor argument — while the no-row case does return the
distinguished `None`. -/
theorem lookup_refresh_token_raises_on_hit :
    lookup_refresh_token
        [⟨"u1", 7, .str "rt", "read", [("refresh_token", .str "rt")]⟩] "u1" =
      .error "TypeError: close_curs missing 1 required positional argument: cur" ∧
    lookup_refresh_token [] "u1" = .ok Option.none := by
  constructor <;> rfl

/-- C8 (failing input): `get_activities` passes the bare string `user_id` as
the sqlite3 parameter sequence, so a two-character user id supplies two
bindings for the single placeholder and raises `ProgrammingError`; only a
one-character user id yields the per-user scan. -/
theorem get_activities_binding_bug :
    get_activities
        [⟨.num 1, .none, .none, .none, .none, "ab", 3, [("id", .num 1)]⟩]
        "ab" =
      .error "ProgrammingError: Incorrect number of bindings supplied" ∧
    get_activities
        [⟨.num 1, .none, .none, .none, .none, "u", 3, [("id", .num 1)]⟩]
        "u" =
      .ok [([("id", .num 1)], 3)] := by
  constructor <;> rfl

/-- C10: `store_token` is not atomic across its two inserts.  If
`token_data` has `refresh_token` but lacks `expires_at`, it raises
`KeyError` after the `refresh_tokens` insert and before the `access_tokens`
insert, leaving the partial write; if it lacks `refresh_token`, it raises
before any insert and both tables are unchanged. -/
theorem store_token_not_atomic :
    (∀ (db : TokenDB) (uid : String) (aid : Int) (td : Dict) (scope : String)
        (rtok : PyVal),
      dictGet td "refresh_token" = some rtok →
      dictGet td "expires_at" = Option.none →
      store_token db uid aid td scope =
        .error ("KeyError: expires_at",
          { db with refresh := db.refresh ++ [⟨uid, aid, rtok, scope, td⟩] })) ∧
    (∀ (db : TokenDB) (uid : String) (aid : Int) (td : Dict) (scope : String),
      dictGet td "refresh_token" = Option.none →
      store_token db uid aid td scope =
        .error ("KeyError: refresh_token", db)) := by
  constructor
  · intro db uid aid td scope rtok h1 h2
    simp [store_token, h1, h2]
  · intro db uid aid td scope h1
    simp [store_token, h1]

/-- Witness for `store_token_not_atomic`: a payload with only a refresh
token leaves exactly the one `refresh_tokens` row behind, and a payload
without a refresh token changes nothing. -/
theorem store_token_not_atomic_witness :
    store_token ⟨[], []⟩ "u1" 7 [("refresh_token", .str "r")] "read" =
      .error ("KeyError: expires_at",
        ⟨[⟨"u1", 7, .str "r", "read", [("refresh_token", .str "r")]⟩], []⟩) ∧
    store_token ⟨[], []⟩ "u1" 7 [("expires_at", .num 1)] "read" =
      .error ("KeyError: refresh_token", ⟨[], []⟩) :=
  ⟨store_token_not_atomic.1 ⟨[], []⟩ "u1" 7 [("refresh_token", .str "r")]
     "read" (.str "r") (by decide) (by decide),
   store_token_not_atomic.2 ⟨[], []⟩ "u1" 7 [("expires_at", .num 1)] "read"
     (by decide)⟩

/-- C2: an activity fetched in detail once and stored is a cache hit for
every later `get_activity` on the same (id, user_id): the store succeeds
(the record carries `id` and `name`, as every detailed remote record does),
the lookup returns exactly the stored record and timestamp, and the
per-activity sync step on the same record is a hit issuing no detail fetch
and leaving the table unchanged (the cache is write-once: `store_activity`
only ever appends, and on a hit nothing is written). -/
theorem activity_cache_write_once (db : List ActivityRow) (a : Dict)
    (uid : String) (now later : ℚ) (idv nv : PyVal)
    (fetchDetail : PyVal → Dict)
    (hid : dictGet a "id" = some idv)
    (hname : dictGet a "name" = some nv)
    (hfresh : get_activity db idv uid = Option.none) :
    store_activity db a uid now =
      .ok (db ++ [storedActivityRow a uid now idv], idv) ∧
    get_activity (db ++ [storedActivityRow a uid now idv]) idv uid =
      some (a, now) ∧
    sync_activity_step (db ++ [storedActivityRow a uid now idv]) uid a
        fetchDetail later =
      .ok (db ++ [storedActivityRow a uid now idv], 0) := by
  have hfind :
      db.find? (fun r => r.act_id == idv && r.user_id == uid) = Option.none := by
    unfold get_activity at hfresh
    exact Option.map_eq_none.mp hfresh
  have hget :
      get_activity (db ++ [storedActivityRow a uid now idv]) idv uid =
        some (a, now) := by
    unfold get_activity
    rw [List.find?_append, hfind]
    simp [storedActivityRow]
  refine ⟨by simp [store_activity, hid, hname], hget, ?_⟩
  simp [sync_activity_step, hid, hget, hname]

/-- Witness for `activity_cache_write_once`: storing activity 42 into an
empty table makes the later lookup a hit and the sync step a no-op. -/
theorem activity_cache_write_once_witness :
    get_activity
        ([] ++ [storedActivityRow [("id", .num 42), ("name", .str "Run")]
          "u" 5 (.num 42)]) (.num 42) "u" =
      some ([("id", .num 42), ("name", .str "Run")], 5) ∧
    sync_activity_step
        ([] ++ [storedActivityRow [("id", .num 42), ("name", .str "Run")]
          "u" 5 (.num 42)]) "u" [("id", .num 42), ("name", .str "Run")]
        (fun _ => []) 9 =
      .ok ([] ++ [storedActivityRow [("id", .num 42), ("name", .str "Run")]
        "u" 5 (.num 42)], 0) :=
  (activity_cache_write_once [] [("id", .num 42), ("name", .str "Run")]
    "u" 5 9 (.num 42) (.str "Run") (fun _ => []) (by decide) (by decide)
    rfl).2

/-- Helper: the pagination loop started at page `p`, when the first empty
page is `k` pages ahead, yields the concatenation of pages `p .. p+k-1` and
requests exactly pages `p .. p+k`. -/
theorem paginateFrom_spec {α : Type} (pages : Nat → List α) :
    ∀ (k fuel p : Nat), pages (p + k) = [] →
      (∀ j, j < k → pages (p + j) ≠ []) → k < fuel →
      paginateFrom pages fuel p =
        (((List.range' p k).map pages).flatten, List.range' p (k + 1)) := by
  intro k
  induction k with
  | zero =>
    intro fuel p hpk _ hfuel
    obtain ⟨f, rfl⟩ : ∃ f, fuel = f + 1 := ⟨fuel - 1, by omega⟩
    simp only [Nat.add_zero] at hpk
    simp [paginateFrom, hpk, List.range'_succ]
  | succ k ih =>
    intro fuel p hpk hne hfuel
    obtain ⟨f, rfl⟩ : ∃ f, fuel = f + 1 := ⟨fuel - 1, by omega⟩
    have hp : ¬ (pages p).isEmpty := by
      have h0 := hne 0 (by omega)
      simp only [Nat.add_zero] at h0
      simpa [List.isEmpty_iff] using h0
    have hrec := ih f (p + 1) (by rw [← hpk]; ring_nf)
      (fun j hj => by
        have := hne (j + 1) (by omega)
        rwa [show p + (j + 1) = p + 1 + j by omega] at this)
      (by omega)
    unfold paginateFrom
    rw [if_neg hp, hrec]
    simp only [Prod.mk.injEq]
    constructor
    · rw [List.range'_succ, List.map_cons, List.flatten_cons]
    · simp [List.range'_succ]

/-- C3: paginated retrieval requests pages with 1-based, monotonically
increasing numbers (`[1, 2, ..., k]`, which `List.range' 1 k` denotes) and
stops exactly at the first page `k` that returns an empty list, yielding
the concatenation of the non-empty pages `1 .. k-1`; in particular for
pages `[A,B],[C],[]` it yields 3 records over 3 requested pages. -/
theorem paginated_results_spec {α : Type} (pages : Nat → List α)
    (k fuel : Nat) (hk : 1 ≤ k) (hempty : pages k = [])
    (hne : ∀ j, 1 ≤ j → j < k → pages j ≠ []) (hfuel : k ≤ fuel) :
    paginatedResults pages fuel =
      (((List.range' 1 (k - 1)).map pages).flatten, List.range' 1 k) := by
  have h := paginateFrom_spec pages (k - 1) fuel 1
    (by rw [show 1 + (k - 1) = k by omega]; exact hempty)
    (fun j hj => by
      have := hne (1 + j) (by omega) (by omega)
      simpa using this)
    (by omega)
  unfold paginatedResults
  rw [h, show k - 1 + 1 = k by omega]

/-- The source sequence of the spec's pagination example: pages
`[A,B],[C],[]` (records named 10, 11, 12). -/
def examplePages : Nat → List Nat :=
  fun n => if n = 1 then [10, 11] else if n = 2 then [12] else []

/-- Witness for `paginated_results_spec` on pages `[A,B],[C],[]`: exactly
the 3 records are yielded and exactly pages 1, 2, 3 are requested. -/
theorem paginated_results_spec_witness :
    paginatedResults examplePages 5 = ([10, 11, 12], [1, 2, 3]) := by
  have h := paginated_results_spec examplePages 3 5 (by decide) (by decide)
    (fun j h1 h2 => by interval_cases j <;> decide) (by decide)
  rw [h]
  decide

/-- Helper: replacing the unique element of a list satisfying `p` by a
fixed element that satisfies `p` leaves exactly that element satisfying
`p`. -/
theorem filter_map_replace {α : Type} (p : α → Bool) (row : α)
    (hrow : p row = true) :
    ∀ (l : List α), (l.filter p).length = 1 →
      (l.map (fun x => if p x then row else x)).filter p = [row] := by
  intro l
  induction l with
  | nil => intro h; simp at h
  | cons x t ih =>
    intro h
    by_cases hx : p x = true
    · have ht : (t.filter p).length = 0 := by
        rw [List.filter_cons, if_pos hx] at h
        simpa using h
      have hall : ∀ y ∈ t, ¬ p y = true :=
        List.filter_eq_nil_iff.mp (List.length_eq_zero.mp ht)
      have hmap : t.map (fun z => if p z then row else z) = t := by
        rw [show t = t.map id by simp]
        rw [List.map_map]
        apply List.map_congr_left
        intro y hy
        simp [hall y (by simpa using hy)]
      rw [List.map_cons, if_pos hx, hmap, List.filter_cons, if_pos hrow]
      rw [List.filter_eq_nil_iff.mpr (fun y hy => hall y hy)]
    · have ht : (t.filter p).length = 1 := by
        rw [List.filter_cons, if_neg hx] at h
        exact h
      rw [List.map_cons, if_neg hx, List.filter_cons, if_neg hx]
      exact ih ht

/-- Helper: a store on a table already holding exactly one row for that
athlete id rewrites that row in place. -/
theorem store_athlete_on_existing (db : List AthleteRow) (a : Dict)
    (uid : String) (t : ℚ) (aid : PyVal) (h : dictGet a "id" = some aid)
    (hcount : (db.filter (fun r => r.athlete_id == aid)).length = 1) :
    store_athlete db a uid t =
      .ok (db.map (fun r =>
        if r.athlete_id == aid then ⟨aid, uid, t, a⟩ else r)) ∧
    ((db.map (fun r =>
        if r.athlete_id == aid then ⟨aid, uid, t, a⟩ else r)).filter
      (fun r => r.athlete_id == aid)) = [⟨aid, uid, t, a⟩] := by
  have hany : db.any (fun r => r.athlete_id == aid) = true := by
    obtain ⟨x, hx⟩ := List.length_eq_one.mp hcount
    have hxm : x ∈ db.filter (fun r => r.athlete_id == aid) := by
      rw [hx]; exact List.mem_cons_self x []
    obtain ⟨hmem, hpx⟩ := List.mem_filter.mp hxm
    exact List.any_eq_true.mpr ⟨x, hmem, hpx⟩
  refine ⟨by simp [store_athlete, h, hany], ?_⟩
  exact filter_map_replace _ _ (by simp) db hcount

/-- C6: two successive `store_athlete` calls with the same athlete id and
different raw payloads both succeed, and afterwards exactly one row for
that athlete id remains, carrying the raw payload, user id and timestamp of
the most recent write (upsert semantics; the hypothesis on `db` is the
schema's uniqueness of `athlete_id`). -/
theorem store_athlete_upsert (db : List AthleteRow) (a1 a2 : Dict)
    (uid1 uid2 : String) (t1 t2 : ℚ) (aid : PyVal)
    (h1 : dictGet a1 "id" = some aid) (h2 : dictGet a2 "id" = some aid)
    (hdiff : a1 ≠ a2)
    (huniq : (db.filter (fun r => r.athlete_id == aid)).length ≤ 1) :
    ((store_athlete db a1 uid1 t1).bind
        (fun db1 => store_athlete db1 a2 uid2 t2)).map
      (fun db2 => db2.filter (fun r => r.athlete_id == aid)) =
    .ok [⟨aid, uid2, t2, a2⟩] := by
  by_cases hany : db.any (fun r => r.athlete_id == aid) = true
  · have hcount : (db.filter (fun r => r.athlete_id == aid)).length = 1 := by
      obtain ⟨x, hmem, hpx⟩ := List.any_eq_true.mp hany
      have : x ∈ db.filter (fun r => r.athlete_id == aid) :=
        List.mem_filter.mpr ⟨hmem, hpx⟩
      have hpos : 0 < (db.filter (fun r => r.athlete_id == aid)).length :=
        List.length_pos.mpr (List.ne_nil_of_mem this)
      omega
    obtain ⟨hs1, hf1⟩ := store_athlete_on_existing db a1 uid1 t1 aid h1 hcount
    have hcount1 : ((db.map (fun r =>
        if r.athlete_id == aid then ⟨aid, uid1, t1, a1⟩ else r)).filter
          (fun r => r.athlete_id == aid)).length = 1 := by
      rw [hf1]; rfl
    obtain ⟨hs2, hf2⟩ := store_athlete_on_existing _ a2 uid2 t2 aid h2 hcount1
    rw [hs1]
    show (store_athlete _ a2 uid2 t2).map _ = _
    rw [hs2]
    exact congrArg Except.ok hf2
  · have hs1 : store_athlete db a1 uid1 t1 =
        .ok (db ++ [⟨aid, uid1, t1, a1⟩]) := by
      simp [store_athlete, h1, hany]
    have hnone : db.filter (fun r => r.athlete_id == aid) = [] := by
      rw [List.filter_eq_nil_iff]
      intro y hy hpy
      exact hany (List.any_eq_true.mpr ⟨y, hy, hpy⟩)
    have hf1 : (db ++ [(⟨aid, uid1, t1, a1⟩ : AthleteRow)]).filter
        (fun r => r.athlete_id == aid) = [⟨aid, uid1, t1, a1⟩] := by
      rw [List.filter_append, hnone]
      simp
    have hcount1 : ((db ++ [(⟨aid, uid1, t1, a1⟩ : AthleteRow)]).filter
        (fun r => r.athlete_id == aid)).length = 1 := by
      rw [hf1]; rfl
    obtain ⟨hs2, hf2⟩ :=
      store_athlete_on_existing _ a2 uid2 t2 aid h2 hcount1
    rw [hs1]
    show (store_athlete _ a2 uid2 t2).map _ = _
    rw [hs2]
    exact congrArg Except.ok hf2

/-- Witness for `store_athlete_upsert`: athlete 7 stored twice with
different payloads into an empty table leaves the single row of the second
write. -/
theorem store_athlete_upsert_witness :
    ((store_athlete [] [("id", .num 7), ("v", .num 1)] "u1" 1).bind
        (fun db1 => store_athlete db1 [("id", .num 7), ("v", .num 2)] "u2" 2)).map
      (fun db2 => db2.filter (fun r => r.athlete_id == .num 7)) =
    .ok [⟨.num 7, "u2", 2, [("id", .num 7), ("v", .num 2)]⟩] :=
  store_athlete_upsert [] [("id", .num 7), ("v", .num 1)]
    [("id", .num 7), ("v", .num 2)] "u1" "u2" 1 2 (.num 7)
    (by decide) (by decide) (by decide) (by decide)

/-- Helper: an Option-valued `mapM` fails when any element fails. -/
theorem mapM_eq_none_of_mem {α β : Type} (f : α → Option β) :
    ∀ (l : List α) (a : α), a ∈ l → f a = Option.none →
      l.mapM f = Option.none := by
  intro l
  induction l with
  | nil => intro a ha _; cases ha
  | cons x t ih =>
    intro a ha hf
    rcases List.mem_cons.mp ha with h | h
    · subst h
      rw [List.mapM_cons, hf]
      rfl
    · cases hfx : f x with
      | none =>
        rw [List.mapM_cons, hfx]
        rfl
      | some y =>
        rw [List.mapM_cons, hfx]
        show (t.mapM f).bind _ = Option.none
        rw [ih a h hf]
        rfl

/-- C7: the private note `"knee:3.5\nback:1"` yields the pains map
{"pains.knee": 3.5, "pains.back": 1.0}; the note `"not a pain note"` yields
an empty pains map without raising; and any malformed pain annotation (a
regex match whose value `float()` rejects) is caught, degrading to an empty
pains map instead of aborting. -/
theorem pain_note_parsing :
    painsOf "knee:3.5\nback:1" =
      [("pains.knee", (7 : ℚ)/2), ("pains.back", 1)] ∧
    painsOf "not a pain note" = [] ∧
    (∀ (note : String) (m : String × String),
      m ∈ painMatches note → pyFloat m.2 = Option.none →
      painsOf note = []) := by
  refine ⟨?_, rfl, ?_⟩
  · have h : painsOf "knee:3.5\nback:1"
        = [("pains.knee",
            (1 : ℚ) * (((3 : ℕ) : ℚ) + ((5 : ℕ) : ℚ) / ((10 : ℚ) ^ (1 : ℕ)))),
           ("pains.back", (1 : ℚ) * ((1 : ℕ) : ℚ))] := rfl
    rw [h]
    norm_num
  · intro note m hm hf
    by_cases hN : note.data.isEmpty = true
    · exfalso
      have hdata : note.data = [] := by simpa using hN
      unfold painMatches at hm
      rw [hdata] at hm
      simp [splitOnChar, lineMatch] at hm
    · have hfm : (fun m : String × String =>
          (pyFloat m.2).map (fun q => ("pains." ++ pyLower m.1, q))) m =
            Option.none := by
        simp [hf]
      have hnone : (painMatches note).mapM
          (fun m => (pyFloat m.2).map
            (fun q => ("pains." ++ pyLower m.1, q))) = Option.none :=
        mapM_eq_none_of_mem _ (painMatches note) m hm hfm
      unfold painsOf
      simp only [hN, if_false, Bool.false_eq_true]
      by_cases hms : (painMatches note).isEmpty = true
      · simp [hms]
      · simp only [hms, Bool.false_eq_true, if_false]
        rw [hnone]

/-- Witness for `pain_note_parsing` at the malformed note `"knee:high"`:
`float("high")` raises, so the pains map degrades to empty. -/
theorem pain_note_parsing_witness : painsOf "knee:high" = [] :=
  pain_note_parsing.2.2 "knee:high" ("knee", "high") (by decide) rfl

/-- Helper: inserting a binding into an association list only adds the
inserted key. -/
theorem mem_assocInsert {β : Type} (d : List (String × β)) (k : String)
    (v : β) (kv : String × β) (h : kv ∈ assocInsert d k v) :
    kv.1 = k ∨ kv ∈ d := by
  unfold assocInsert at h
  by_cases hc : d.any (fun kv => kv.1 == k) = true
  · rw [if_pos hc] at h
    rcases List.mem_map.mp h with ⟨x, hx, hfx⟩
    by_cases hxk : (x.1 == k) = true
    · rw [if_pos hxk] at hfx
      left; rw [← hfx]
    · rw [if_neg hxk] at hfx
      right; rw [← hfx]; exact hx
  · rw [if_neg hc] at h
    rcases List.mem_append.mp h with h | h
    · right; exact h
    · left
      have : kv = (k, v) := by simpa using h
      rw [this]

/-- Helper: a fold of pain insertions into a dict only adds keys of the
inserted pains. -/
theorem mem_foldl_dictInsert (pains : List (String × ℚ)) :
    ∀ (acc : Dict) (kv : String × PyVal),
      kv ∈ pains.foldl (fun d p => dictInsert d p.1 (.num p.2)) acc →
      kv ∈ acc ∨ ∃ p ∈ pains, kv.1 = p.1 := by
  induction pains with
  | nil => intro acc kv h; exact Or.inl h
  | cons p t ih =>
    intro acc kv h
    rcases ih (dictInsert acc p.1 (.num p.2)) kv h with h2 | ⟨q, hq, hkq⟩
    · rcases mem_assocInsert _ _ _ _ h2 with h3 | h3
      · exact Or.inr ⟨p, List.mem_cons_self p t, h3⟩
      · exact Or.inl h3
    · exact Or.inr ⟨q, List.mem_cons_of_mem p hq, hkq⟩

/-- Helper: every element of a successful Option-valued `mapM` result comes
from some element of the input. -/
theorem mapM_option_mem {α β : Type} (f : α → Option β) :
    ∀ (l : List α) (res : List β), l.mapM f = some res →
      ∀ b ∈ res, ∃ a ∈ l, f a = some b := by
  intro l
  induction l with
  | nil =>
    intro res h b hb
    have : res = [] := by
      have hn : ([] : List α).mapM f = some [] := rfl
      rw [hn] at h
      injection h with h
      exact h.symm
    rw [this] at hb
    cases hb
  | cons x t ih =>
    intro res h b hb
    rw [List.mapM_cons] at h
    cases hfx : f x with
    | none =>
      rw [hfx] at h
      simp at h
    | some y =>
      rw [hfx] at h
      have h' : (t.mapM f).bind (fun ys => some (y :: ys)) = some res := h
      cases hmt : t.mapM f with
      | none => rw [hmt] at h'; simp at h'
      | some ys =>
        rw [hmt] at h'
        have hres : res = y :: ys := by
          injection h' with h'
          exact h'.symm
        rw [hres] at hb
        rcases List.mem_cons.mp hb with hb | hb
        · exact ⟨x, List.mem_cons_self x t, by rw [hfx, hb]⟩
        · obtain ⟨a, ha, hfa⟩ := ih ys hmt b hb
          exact ⟨a, List.mem_cons_of_mem x ha, hfa⟩

/-- Helper: every key the pains map produces starts with `"pains."`. -/
theorem painsOf_key_shape (note : String) (p : String × ℚ)
    (hp : p ∈ painsOf note) : ∃ rest, p.1 = "pains." ++ rest := by
  unfold painsOf at hp
  by_cases hN : note.data.isEmpty = true
  · simp [hN] at hp
  · simp only [hN, Bool.false_eq_true, if_false] at hp
    by_cases hms : (painMatches note).isEmpty = true
    · rw [if_pos hms] at hp; cases hp
    · rw [if_neg hms] at hp
      cases hmm : (painMatches note).mapM
          (fun m => (pyFloat m.2).map
            (fun q => ("pains." ++ pyLower m.1, q))) with
      | none => rw [hmm] at hp; cases hp
      | some pairs =>
        rw [hmm] at hp
        -- trace p back through the fold, then through mapM
        have hfold :
            ∀ (l : List (String × ℚ)) (acc : List (String × ℚ)),
              p ∈ l.foldl (fun d q => assocInsert d q.1 q.2) acc →
              p ∈ acc ∨ ∃ q ∈ l, p.1 = q.1 := by
          intro l
          induction l with
          | nil => intro acc h; exact Or.inl h
          | cons q t ih =>
            intro acc h
            rcases ih (assocInsert acc q.1 q.2) h with h2 | ⟨r, hr, hpr⟩
            · rcases mem_assocInsert _ _ _ _ h2 with h3 | h3
              · exact Or.inr ⟨q, List.mem_cons_self q t, h3⟩
              · exact Or.inl h3
            · exact Or.inr ⟨r, List.mem_cons_of_mem q hr, hpr⟩
        rcases hfold pairs [] hp with h2 | ⟨q, hq, hpq⟩
        · cases h2
        · obtain ⟨m, _hm, hfm⟩ := mapM_option_mem _ _ pairs hmm q hq
          cases hfq : pyFloat m.2 with
          | none => rw [hfq] at hfm; cases hfm
          | some x =>
            rw [hfq] at hfm
            injection hfm with hfm
            refine ⟨pyLower m.1, ?_⟩
            rw [hpq, ← hfm]

/-- Helper: no string starting with `"pains."` is `"private_note"`. -/
theorem pains_key_ne_private_note (rest : String) :
    "pains." ++ rest ≠ "private_note" := by
  intro h
  have h2 : ("pains." ++ rest).data = "private_note".data := by rw [h]
  have h3 : ("pains." ++ rest).data =
      'p' :: 'a' :: 'i' :: 'n' :: 's' :: '.' :: rest.data := rfl
  have h4 : "private_note".data =
      ['p', 'r', 'i', 'v', 'a', 't', 'e', '_', 'n', 'o', 't', 'e'] := rfl
  rw [h3, h4] at h2
  simp at h2

/-- C9: every key of an exported row of `get_strava_activities` is one of
the 17 selection fields or a derived `"pains."`-prefixed key; in particular
`private_note` itself never appears as a key of an exported row. -/
theorem export_row_keys (record : Dict) :
    ∀ kv ∈ exportRow record,
      (kv.1 ∈ selection ∨ ∃ rest, kv.1 = "pains." ++ rest) ∧
      kv.1 ≠ "private_note" := by
  intro kv hkv
  have hmain : kv.1 ∈ selection ∨ ∃ rest, kv.1 = "pains." ++ rest := by
    unfold exportRow at hkv
    rcases mem_foldl_dictInsert _ _ _ hkv with h | ⟨p, hp, hk⟩
    · left
      have hf := List.mem_filter.mp h
      exact List.mem_of_elem_eq_true hf.2
    · right
      obtain ⟨rest, hr⟩ := painsOf_key_shape _ p hp
      exact ⟨rest, by rw [hk, hr]⟩
  refine ⟨hmain, ?_⟩
  rcases hmain with h | ⟨rest, hr⟩
  · intro hc
    rw [hc] at h
    revert h
    decide
  · rw [hr]
    exact pains_key_ne_private_note rest

/-- Witness for `export_row_keys`: the `id` key of a concrete exported row
is a selection field and is not `private_note`. -/
theorem export_row_keys_witness :
    ((("id", PyVal.num 5) : String × PyVal).1 ∈ selection ∨
      ∃ rest, (("id", PyVal.num 5) : String × PyVal).1 = "pains." ++ rest) ∧
    (("id", PyVal.num 5) : String × PyVal).1 ≠ "private_note" :=
  export_row_keys [("id", .num 5), ("name", .str "Run"), ("kudos", .num 2)]
    ("id", .num 5) (by decide)

end Stravaldi
